import Mathlib

/-!
Verification development for the progressive-blur core of this repository.

The authoritative implementation is the WebGL2 worker (the second unnamed
source file): a fragment shader run twice (horizontal then vertical pass)
over the image, plus the host glue `processBlurGPU` and the worker's
`onmessage` handler.  The shader arithmetic (IEEE floats on the GPU) is
embedded with exact rationals for the kernel-size resolution and exact
reals for the weights; `texture()` sampling with `CLAMP_TO_EDGE` at whole
pixel offsets is embedded as clamped integer indexing.
-/

/-- The worker's easing identifiers (keys of `easingMap` in the worker). -/
inductive Easing where
  | linear
  | easeIn
  | easeOut
  | easeInOut
deriving DecidableEq

/-- The worker's blur-type identifiers (keys of `blurTypeMap`); the worker's
`BlurConfig` type admits only `'linear' | 'gaussian'`. -/
inductive BlurType where
  | linear
  | gaussian
deriving DecidableEq

/-- The UI-level blur type (`"none" | "linear" | "gaussian"`, as in the
settings panel and in §3 of the design spec). -/
inductive UIBlurType where
  | none
  | linear
  | gaussian
deriving DecidableEq

/-- The worker's `BlurConfig` record (its `interface BlurConfig`). -/
structure BlurConfig where
  enabled : Bool
  startPoint : ℚ
  endPoint : ℚ
  maxKernelSize : ℤ
  easing : Easing
  blurType : BlurType
deriving DecidableEq

/-- The UI-level config record: same fields, but the blur type may be `none`. -/
structure UIBlurConfig where
  enabled : Bool
  startPoint : ℚ
  endPoint : ℚ
  maxKernelSize : ℤ
  easing : Easing
  blurType : UIBlurType
deriving DecidableEq

/-- `const easingMap = { linear: 0, easeIn: 1, easeOut: 2, easeInOut: 3 }`. -/
def easingMap : Easing → ℤ
  | Easing.linear => 0
  | Easing.easeIn => 1
  | Easing.easeOut => 2
  | Easing.easeInOut => 3

/-- `const blurTypeMap = { linear: 0, gaussian: 1 }`. -/
def blurTypeMap : BlurType → ℤ
  | BlurType.linear => 0
  | BlurType.gaussian => 1

/-- GLSL `mod(x, y) = x - y * floor(x/y)`. -/
def glslMod (x y : ℚ) : ℚ := x - y * ⌊x / y⌋

/-- GLSL `int(x)`: conversion of a float to an int truncates toward zero. -/
def glslInt (x : ℚ) : ℤ := if x < 0 then -⌊-x⌋ else ⌊x⌋

/-- The shader's `easingFunc`, dispatching on the integer uniform `u_easing`
(`0`: linear, `1`: easeIn, `2`: easeOut, otherwise easeInOut). -/
def easingFunc (e : ℤ) (x : ℚ) : ℚ :=
  if e = 0 then x
  else if e = 1 then x * x * (2 * x - 1)
  else if e = 2 then x * (2 - x)
  else if x < 1 / 2 then 2 * x * x else -1 + (4 - 2 * x) * x

/-- The shader's `rangeProgress` expression
`(normalizedY - u_startPoint) / (u_endPoint - u_startPoint)`.  Note there is
no guard for `u_endPoint == u_startPoint`; in the rational embedding a zero
denominator makes the division return `0`. -/
def rangeProgress (cfg : BlurConfig) (normalizedY : ℚ) : ℚ :=
  (normalizedY - cfg.startPoint) / (cfg.endPoint - cfg.startPoint)

/-- The shader's `kernelSize` computation in `main()`:
`0` below the band, `u_maxKernelSize` above it, otherwise
`floor(easingFunc(rangeProgress) * maxKernelSize)` bumped to odd via
`if (mod(kernelSize, 2.0) < 0.5) kernelSize += 1.0`. -/
def kernelSizeAt (cfg : BlurConfig) (normalizedY : ℚ) : ℚ :=
  if normalizedY < cfg.startPoint then 0
  else if cfg.endPoint < normalizedY then (cfg.maxKernelSize : ℚ)
  else
    let easedProgress := easingFunc (easingMap cfg.easing) (rangeProgress cfg normalizedY)
    let ks : ℚ := (⌊easedProgress * (cfg.maxKernelSize : ℚ)⌋ : ℚ)
    if glslMod ks 2 < 1 / 2 then ks + 1 else ks

/-- The shader's `radius` variable: `(kernelSize - 1.0) / 2.0`. -/
def radiusAt (cfg : BlurConfig) (normalizedY : ℚ) : ℚ :=
  (kernelSizeAt cfg normalizedY - 1) / 2

/-- The shader's `effectiveRadius = int(radius)`, capped by the loop bound
`MAX_RADIUS = 1000` (offsets with `|i| > MAX_RADIUS` are never visited). -/
def effRadius (cfg : BlurConfig) (normalizedY : ℚ) : ℤ :=
  min (glslInt (radiusAt cfg normalizedY)) 1000

/-- Number of taps the shader actually accumulates on a scanline: one
(the passthrough `texture` read) when `kernelSize < 1.0`, otherwise the
offsets `-effectiveRadius .. effectiveRadius`. -/
def numTaps (cfg : BlurConfig) (normalizedY : ℚ) : ℤ :=
  if kernelSizeAt cfg normalizedY < 1 then 1
  else 2 * effRadius cfg normalizedY + 1

/-- The error message thrown by `processBlurGPU` when the WebGL2 context
cannot be acquired. -/
def webglError : String := "WebGL2 not supported in this environment."

/-- An RGBA pixel buffer: integer byte values, indexed by column, row and
channel.  A `Uint8ClampedArray` of the right length corresponds to the
restriction to `0 ≤ x < width`, `0 ≤ y < height`. -/
def Buffer : Type := ℤ → ℤ → Fin 4 → ℤ

/-- The shader's per-tap weight: `1.0 / kernelSize` when `u_blurType == 0`
(linear), otherwise `exp(-0.5 * (offset/sigma) * (offset/sigma))` with
`sigma = kernelSize / 6.0`. -/
noncomputable def rawWeight (bt : ℤ) (kernelSize : ℚ) (i : ℤ) : ℝ :=
  if bt = 0 then ((1 / kernelSize : ℚ) : ℝ)
  else Real.exp (-(0.5 : ℝ) * ((i : ℝ) / ((kernelSize : ℝ) / 6)) *
    ((i : ℝ) / ((kernelSize : ℝ) / 6)))

/-- The fragment shader's `main()` for one channel of one output fragment:
identity `texture` read when `kernelSize < 1.0`, otherwise the weighted sum
over offsets `-effectiveRadius .. effectiveRadius` divided by the actual
`weightSum`.  `line j` is the (edge-clamped) source sample at position `j`
along the current pass direction. -/
noncomputable def fragOutput (cfg : BlurConfig) (normalizedY : ℚ) (line : ℤ → ℝ)
    (pos : ℤ) : ℝ :=
  if kernelSizeAt cfg normalizedY < 1 then line pos
  else
    (∑ i ∈ Finset.Icc (-(effRadius cfg normalizedY)) (effRadius cfg normalizedY),
        rawWeight (blurTypeMap cfg.blurType) (kernelSizeAt cfg normalizedY) i * line (pos + i)) /
      ∑ i ∈ Finset.Icc (-(effRadius cfg normalizedY)) (effRadius cfg normalizedY),
        rawWeight (blurTypeMap cfg.blurType) (kernelSizeAt cfg normalizedY) i

/-- `CLAMP_TO_EDGE` addressing: an out-of-bounds index clamps to `[0, n-1]`. -/
def clampIdx (n : ℕ) (j : ℤ) : ℤ := max 0 (min j ((n : ℤ) - 1))

/-- Texture upload: `UNSIGNED_BYTE` data sampled by the shader as floats in
`[0,1]` (byte value divided by 255). -/
noncomputable def toTex (buf : Buffer) : ℤ → ℤ → Fin 4 → ℝ :=
  fun x y ch => ((buf x y ch : ℤ) : ℝ) / 255

/-- Pass 1 (`u_direction = (1,0)`): horizontal blur.  The fragment at output
pixel `(x, y)` has `v_texCoord.y = (y + 0.5) / height`, and samples the
source at `x + i` (edge-clamped) on row `y`. -/
noncomputable def horizPass (cfg : BlurConfig) (w h : ℕ) (tex : ℤ → ℤ → Fin 4 → ℝ) :
    ℤ → ℤ → Fin 4 → ℝ :=
  fun x y ch =>
    fragOutput cfg (((y : ℚ) + 1 / 2) / (h : ℚ))
      (fun j => tex (clampIdx w j) (clampIdx h y) ch) x

/-- Pass 2 (`u_direction = (0,1)`): vertical blur over the intermediate
buffer, same per-row kernel resolution as pass 1. -/
noncomputable def vertPass (cfg : BlurConfig) (w h : ℕ) (tex : ℤ → ℤ → Fin 4 → ℝ) :
    ℤ → ℤ → Fin 4 → ℝ :=
  fun x y ch =>
    fragOutput cfg (((y : ℚ) + 1 / 2) / (h : ℚ))
      (fun j => tex (clampIdx w x) (clampIdx h j) ch) y

/-- `readPixels` conversion of a float channel back to `UNSIGNED_BYTE`:
clamp to `[0,1]`, scale by 255, round to nearest. -/
noncomputable def quantize (v : ℝ) : ℤ := ⌊max 0 (min v 1) * 255 + 1 / 2⌋

/-- The worker's `processBlurGPU`: returns the input unchanged when
`!config.enabled`; throws when no WebGL2 context can be acquired (`gl`
records context availability); otherwise runs the horizontal pass, then the
vertical pass on the intermediate texture, and reads back the bytes. -/
noncomputable def processBlurGPU (gl : Bool) (imageData : Buffer) (w h : ℕ)
    (config : BlurConfig) : Except String Buffer :=
  if config.enabled = false then Except.ok imageData
  else if gl = false then Except.error webglError
  else Except.ok (fun x y ch =>
    quantize (vertPass config w h (horizPass config w h (toTex imageData)) x y ch))

/-- A worker request (`interface WorkerMessage`): fields are optional. -/
inductive WorkerMessage where
  | getEasings
  | process (imageData : Option Buffer) (width : Option ℕ) (height : Option ℕ)
      (config : Option BlurConfig)

/-- A message posted back by the worker. -/
inductive WorkerOut where
  | easings (ids : List String)
  | processed (buf : Buffer)

/-- The worker's `self.onmessage` handler.  `'getEasings'` answers with
`Object.keys(easingMap)`.  `'process'` silently returns when any field is
missing or falsy (note a width or height of `0` is falsy in JS); it posts
the processed buffer on success, and on exception logs via `console.error`
and posts nothing. -/
noncomputable def handleMessage (gl : Bool) : WorkerMessage → Option WorkerOut
  | WorkerMessage.getEasings =>
      some (WorkerOut.easings ["linear", "easeIn", "easeOut", "easeInOut"])
  | WorkerMessage.process imageData width height config =>
      match imageData, width, height, config with
      | some buf, some w, some h, some cfg =>
          if w = 0 ∨ h = 0 then none
          else
            match processBlurGPU gl buf w h cfg with
            | Except.ok d => some (WorkerOut.processed d)
            | Except.error _ => none
      | _, _, _, _ => none

/-- Whether a worker result is a success (the `Except.ok` constructor). -/
def resultIsOk : Except String Buffer → Bool
  | Except.ok _ => true
  | Except.error _ => false

/-- Modelled from the spec: the `useImageWorker` hook is imported by
`src/src/App.tsx` and the settings panel but its file is not under `src/`;
it owns the UI-level `BlurConfig` whose `blurType` admits `"none"`.  Per
§4.2 of the spec the blur entry point returns the input unchanged when
`config.blurType == none` (the worker's own config type has no `none`, and
the spec declares `none` equivalent to `enabled=false`); any other request
is forwarded verbatim to the worker's `processBlurGPU`. -/
noncomputable def blurEntry (gl : Bool) (buf : Buffer) (w h : ℕ)
    (cfg : UIBlurConfig) : Except String Buffer :=
  match cfg.blurType with
  | UIBlurType.none => Except.ok buf
  | UIBlurType.linear =>
      processBlurGPU gl buf w h
        ⟨cfg.enabled, cfg.startPoint, cfg.endPoint, cfg.maxKernelSize, cfg.easing,
          BlurType.linear⟩
  | UIBlurType.gaussian =>
      processBlurGPU gl buf w h
        ⟨cfg.enabled, cfg.startPoint, cfg.endPoint, cfg.maxKernelSize, cfg.easing,
          BlurType.gaussian⟩

/-- The concrete scenario of §8 of the spec: linear blur over the whole
band with `maxKernelSize = 3`. -/
def cfgLin3 : BlurConfig := ⟨true, 0, 1, 3, Easing.linear, BlurType.linear⟩

/-- Gaussian blur over the whole band with `maxKernelSize = 9`. -/
def cfgGauss9 : BlurConfig := ⟨true, 0, 1, 9, Easing.linear, BlurType.gaussian⟩

/-- Linear blur with an even `maxKernelSize` (the UI allows any step-1 value
in `1..499` for `linear`). -/
def cfgEven4 : BlurConfig := ⟨true, 0, 1/2, 4, Easing.linear, BlurType.linear⟩

/-- A config with `startPoint == endPoint` (reachable from the range
slider, whose two thumbs may coincide). -/
def cfgDegenerate : BlurConfig := ⟨true, 1/2, 1/2, 299, Easing.easeInOut, BlurType.gaussian⟩

/-- A config whose `maxKernelSize` is outside the documented `[1,499]`. -/
def cfg500 : BlurConfig := ⟨true, 0, 1, 500, Easing.linear, BlurType.linear⟩

/-- A disabled UI config. -/
def cfgOffUI : UIBlurConfig := ⟨false, 0, 1, 3, Easing.linear, UIBlurType.linear⟩

/-- An all-zero RGBA buffer. -/
def bufZero : Buffer := fun _ _ _ => 0

/-- The uniform pure-red channel values `(255, 0, 0, 255)` of §8's scenario. -/
def colRed : Fin 4 → ℤ := fun ch => if ch = 0 then 255 else if ch = 3 then 255 else 0

/-- A uniform pure-red RGBA buffer. -/
def bufRed : Buffer := fun _ _ ch => colRed ch

/-- GLSL `mod(k, 2.0) < 0.5` detects evenness of an integer-valued float. -/
lemma glslMod_two_lt_half_iff (f : ℤ) : glslMod (f : ℚ) 2 < 1 / 2 ↔ Even f := by
  unfold glslMod
  rcases Int.even_or_odd f with ⟨m, rfl⟩ | ⟨m, rfl⟩
  · have hf : ((m + m : ℤ) : ℚ) / 2 = (m : ℚ) := by push_cast; ring
    rw [hf, Int.floor_intCast]
    constructor
    · intro _; exact ⟨m, rfl⟩
    · intro _; push_cast; linarith
  · have hf : ((2 * m + 1 : ℤ) : ℚ) / 2 = (m : ℚ) + 1 / 2 := by push_cast; ring
    have hfl : ⌊((2 * m + 1 : ℤ) : ℚ) / 2⌋ = m := by
      rw [hf, Int.floor_int_add]
      norm_num
    rw [hfl]
    constructor
    · intro hlt; exfalso; push_cast at hlt; linarith
    · intro hev
      exfalso
      rw [Int.even_iff] at hev
      omega

/-- Every easing branch maps `0` to `0`. -/
lemma easingFunc_zero (e : ℤ) : easingFunc e 0 = 0 := by
  unfold easingFunc
  split
  · rfl
  · split
    · norm_num
    · split
      · norm_num
      · norm_num

/-- Each raw shader weight is strictly positive once `kernelSize ≥ 1`. -/
lemma rawWeight_pos (bt : ℤ) (k : ℚ) (hk : 1 ≤ k) (i : ℤ) : 0 < rawWeight bt k i := by
  unfold rawWeight
  split
  · have h0 : (0 : ℚ) < 1 / k := by positivity
    exact_mod_cast h0
  · exact Real.exp_pos _

/-- The accumulated `weightSum` is strictly positive. -/
lemma weightSum_pos (bt : ℤ) (k : ℚ) (hk : 1 ≤ k) (r : ℤ) (hr : 0 ≤ r) :
    0 < ∑ i ∈ Finset.Icc (-r) r, rawWeight bt k i := by
  refine Finset.sum_pos (fun i _ => rawWeight_pos bt k hk i) ?_
  exact ⟨0, Finset.mem_Icc.mpr ⟨neg_nonpos.mpr hr, hr⟩⟩

/-- When the resolved kernel size is at least 1, the effective radius is
nonnegative. -/
lemma effRadius_nonneg (cfg : BlurConfig) (normalizedY : ℚ)
    (hk : 1 ≤ kernelSizeAt cfg normalizedY) : 0 ≤ effRadius cfg normalizedY := by
  unfold effRadius radiusAt glslInt
  have h0 : (0 : ℚ) ≤ (kernelSizeAt cfg normalizedY - 1) / 2 :=
    div_nonneg (by linarith) (by norm_num)
  rw [if_neg (not_lt.mpr h0)]
  exact le_min (Int.floor_nonneg.mpr h0) (by norm_num)

/-- A scanline of constant value is a fixed point of the fragment shader. -/
lemma fragOutput_const (cfg : BlurConfig) (normalizedY : ℚ) (v : ℝ) (pos : ℤ) :
    fragOutput cfg normalizedY (fun _ => v) pos = v := by
  unfold fragOutput
  split
  · rfl
  · rename_i hlt
    have hk : 1 ≤ kernelSizeAt cfg normalizedY := not_lt.mp hlt
    have hW : 0 < ∑ i ∈ Finset.Icc (-(effRadius cfg normalizedY)) (effRadius cfg normalizedY),
        rawWeight (blurTypeMap cfg.blurType) (kernelSizeAt cfg normalizedY) i :=
      weightSum_pos _ _ hk _ (effRadius_nonneg cfg normalizedY hk)
    rw [← Finset.sum_mul]
    exact mul_div_cancel_left₀ v (ne_of_gt hW)

/-- Reading back a byte value that went through the float round trip returns
the same byte. -/
lemma quantize_byte (n : ℤ) (h0 : 0 ≤ n) (h255 : n ≤ 255) :
    quantize ((n : ℝ) / 255) = n := by
  unfold quantize
  have hle : ((n : ℝ) / 255) ≤ 1 := by
    rw [div_le_one (by norm_num)]
    exact_mod_cast h255
  have hge : (0 : ℝ) ≤ (n : ℝ) / 255 := by positivity
  rw [min_eq_left hle, max_eq_right hge, div_mul_cancel₀ _ (by norm_num : (255 : ℝ) ≠ 0)]
  rw [Int.floor_int_add]
  norm_num

/-- Core uniform-image lemma: with a WebGL2 context, the whole two-pass
pipeline maps a constant byte buffer to itself. -/
lemma processBlurGPU_uniform (buf : Buffer) (w h : ℕ) (c : Fin 4 → ℤ)
    (cfg : BlurConfig) (hbuf : ∀ x y ch, buf x y ch = c ch)
    (h0 : ∀ ch, 0 ≤ c ch) (h255 : ∀ ch, c ch ≤ 255) :
    processBlurGPU true buf w h cfg = Except.ok buf := by
  unfold processBlurGPU
  by_cases he : cfg.enabled = false
  · rw [if_pos he]
  · rw [if_neg he, if_neg (by simp)]
    congr 1
    funext x y ch
    have htex : ∀ a b ch', toTex buf a b ch' = (c ch' : ℝ) / 255 := by
      intro a b ch'; unfold toTex; rw [hbuf]
    have hhor : ∀ a b ch', horizPass cfg w h (toTex buf) a b ch' = (c ch' : ℝ) / 255 := by
      intro a b ch'
      unfold horizPass
      have hline : (fun j => toTex buf (clampIdx w j) (clampIdx h b) ch') =
          fun _ => (c ch' : ℝ) / 255 := funext fun j => htex _ _ _
      rw [hline, fragOutput_const]
    have hver : vertPass cfg w h (horizPass cfg w h (toTex buf)) x y ch = (c ch : ℝ) / 255 := by
      unfold vertPass
      have hline : (fun j => horizPass cfg w h (toTex buf) (clampIdx w x) (clampIdx h j) ch) =
          fun _ => (c ch : ℝ) / 255 := funext fun j => hhor _ _ _
      rw [hline, fragOutput_const]
    rw [hver, quantize_byte (c ch) (h0 ch) (h255 ch), hbuf]


/-- Claim C1: for `startPoint < endPoint` and `startPoint ≤ y ≤ endPoint`,
the resolved kernel size is `floor(easing((y - startPoint) / (endPoint -
startPoint)) * maxKernelSize)`, incremented by 1 when that floor is even;
the radius is `(kernelSize - 1) / 2`; and whenever the resulting kernel
size is below 1 the scanline is an identity passthrough. -/
theorem C1_kernel_resolution (cfg : BlurConfig) (y : ℚ) (line : ℤ → ℝ) (pos : ℤ)
    (hlt : cfg.startPoint < cfg.endPoint) (h1 : cfg.startPoint ≤ y)
    (h2 : y ≤ cfg.endPoint) :
    kernelSizeAt cfg y =
      (((if Even ⌊easingFunc (easingMap cfg.easing)
              ((y - cfg.startPoint) / (cfg.endPoint - cfg.startPoint)) *
              (cfg.maxKernelSize : ℚ)⌋
          then ⌊easingFunc (easingMap cfg.easing)
              ((y - cfg.startPoint) / (cfg.endPoint - cfg.startPoint)) *
              (cfg.maxKernelSize : ℚ)⌋ + 1
          else ⌊easingFunc (easingMap cfg.easing)
              ((y - cfg.startPoint) / (cfg.endPoint - cfg.startPoint)) *
              (cfg.maxKernelSize : ℚ)⌋) : ℤ) : ℚ) ∧
    radiusAt cfg y = (kernelSizeAt cfg y - 1) / 2 ∧
    (kernelSizeAt cfg y < 1 → fragOutput cfg y line pos = line pos) := by
  refine ⟨?_, rfl, ?_⟩
  · unfold kernelSizeAt rangeProgress
    rw [if_neg (not_lt.mpr h1), if_neg (not_lt.mpr h2)]
    dsimp only
    by_cases hE : Even ⌊easingFunc (easingMap cfg.easing)
        ((y - cfg.startPoint) / (cfg.endPoint - cfg.startPoint)) * (cfg.maxKernelSize : ℚ)⌋
    · rw [if_pos ((glslMod_two_lt_half_iff _).mpr hE), if_pos hE]
      push_cast
      ring
    · rw [if_neg (fun hc => hE ((glslMod_two_lt_half_iff _).mp hc)), if_neg hE]
  · intro hk
    unfold fragOutput
    rw [if_pos hk]

/-- Witness for C1 at the §8 scenario config and the middle scanline. -/
theorem C1_kernel_resolution_witness :
    cfgLin3.startPoint < cfgLin3.endPoint ∧ kernelSizeAt cfgLin3 (1/2) = 1 := by
  constructor
  · norm_num [cfgLin3]
  · have h := (C1_kernel_resolution cfgLin3 (1/2) (fun _ => 0) 0
      (by norm_num [cfgLin3]) (by norm_num [cfgLin3]) (by norm_num [cfgLin3])).1
    rw [h]
    norm_num [cfgLin3, easingMap, easingFunc]

/-- Claim C2 counterexample: with the even `maxKernelSize = 4` (legal for
`linear` blur) and a scanline past `endPoint`, the shader's kernel size is
exactly `4` — not `5`, which is `maxKernelSize` rounded up to odd — and the
tap count actually applied is `3` (rounded down to odd). -/
theorem C2_counterexample :
    kernelSizeAt cfgEven4 (3/4) = 4 ∧ numTaps cfgEven4 (3/4) = 3 ∧
    ¬ kernelSizeAt cfgEven4 (3/4) = 5 ∧ ¬ numTaps cfgEven4 (3/4) = 5 := by
  refine ⟨?_, ?_, ?_, ?_⟩ <;>
    norm_num [cfgEven4, numTaps, effRadius, radiusAt, glslInt, kernelSizeAt,
      rangeProgress, easingFunc, easingMap, glslMod]

/-- Claim C2 (amended): the tap count the shader applies on a scanline is
always odd; but for `y > endPoint` the kernel size equals `maxKernelSize`
exactly (no odd rounding), so the applied tap count is `maxKernelSize`
rounded DOWN to odd when `maxKernelSize` is even. -/
theorem C2_amended (cfg : BlurConfig) (y : ℚ) (hse : cfg.startPoint ≤ cfg.endPoint) :
    Odd (numTaps cfg y) ∧
    (cfg.endPoint < y → kernelSizeAt cfg y = (cfg.maxKernelSize : ℚ)) ∧
    (cfg.endPoint < y → 1 ≤ cfg.maxKernelSize → cfg.maxKernelSize ≤ 2001 →
      numTaps cfg y =
        if Even cfg.maxKernelSize then cfg.maxKernelSize - 1 else cfg.maxKernelSize) := by
  have hks : cfg.endPoint < y → kernelSizeAt cfg y = (cfg.maxKernelSize : ℚ) := by
    intro hy
    unfold kernelSizeAt
    rw [if_neg (not_lt.mpr (le_of_lt (lt_of_le_of_lt hse hy))), if_pos hy]
  refine ⟨?_, hks, ?_⟩
  · unfold numTaps
    split
    · exact odd_one
    · exact ⟨effRadius cfg y, by ring⟩
  · intro hy h1 h2001
    have hk : kernelSizeAt cfg y = (cfg.maxKernelSize : ℚ) := hks hy
    have hk1 : ¬ kernelSizeAt cfg y < 1 := by
      rw [hk]
      exact not_lt.mpr (by exact_mod_cast h1)
    unfold numTaps effRadius radiusAt glslInt
    rw [if_neg hk1, hk]
    have hnn : ¬ ((cfg.maxKernelSize : ℚ) - 1) / 2 < 0 := by
      refine not_lt.mpr (div_nonneg ?_ (by norm_num))
      have : (1 : ℚ) ≤ (cfg.maxKernelSize : ℚ) := by exact_mod_cast h1
      linarith
    rw [if_neg hnn]
    rcases Int.even_or_odd cfg.maxKernelSize with ⟨m, hm⟩ | ⟨m, hm⟩
    · have hm1 : 1 ≤ m := by omega
      have hm1000 : m ≤ 1000 := by omega
      have hfl : ⌊((cfg.maxKernelSize : ℚ) - 1) / 2⌋ = m - 1 := by
        have hq : ((cfg.maxKernelSize : ℚ) - 1) / 2 = ((m - 1 : ℤ) : ℚ) + 1 / 2 := by
          rw [hm]; push_cast; ring
        rw [hq, Int.floor_int_add]
        norm_num
      rw [hfl, min_eq_left (by omega), if_pos ⟨m, hm⟩]
      omega
    · have hm1000 : m ≤ 1000 := by omega
      have hfl : ⌊((cfg.maxKernelSize : ℚ) - 1) / 2⌋ = m := by
        have hq : ((cfg.maxKernelSize : ℚ) - 1) / 2 = ((m : ℤ) : ℚ) := by
          rw [hm]; push_cast; ring
        rw [hq, Int.floor_intCast]
      rw [hfl, min_eq_left (by omega), if_neg (by rw [hm, Int.even_iff]; omega)]
      omega

/-- Witness for C2 (amended) at the even-kernel config past the band end. -/
theorem C2_amended_witness :
    cfgEven4.startPoint ≤ cfgEven4.endPoint ∧ cfgEven4.endPoint < 3/4 ∧
    Odd (numTaps cfgEven4 (3/4)) ∧ kernelSizeAt cfgEven4 (3/4) = 4 ∧
    numTaps cfgEven4 (3/4) = 3 := by
  have h := C2_amended cfgEven4 (3/4) (by norm_num [cfgEven4])
  refine ⟨by norm_num [cfgEven4], by norm_num [cfgEven4], h.1, ?_, ?_⟩
  · have := h.2.1 (by norm_num [cfgEven4])
    rw [this]
    norm_num [cfgEven4]
  · have := h.2.2 (by norm_num [cfgEven4]) (by norm_num [cfgEven4]) (by norm_num [cfgEven4])
    have he : Even cfgEven4.maxKernelSize := ⟨2, by norm_num [cfgEven4]⟩
    rw [this, if_pos he]
    norm_num [cfgEven4]

/-- Claim C9 counterexample: with `startPoint == endPoint` the shader's
`rangeProgress` divides by zero unguarded; in the exact rational embedding
(where division by zero yields 0) the ramp progress is `0`, not the `t = 1`
the claim asserts. -/
theorem C9_counterexample :
    rangeProgress cfgDegenerate (1/2) = 0 ∧ ¬ rangeProgress cfgDegenerate (1/2) = 1 := by
  constructor <;> norm_num [rangeProgress, cfgDegenerate]

/-- Claim C9 (amended): the code has no guard for `endPoint == startPoint`;
the zero-denominator division is performed.  In the rational embedding the
ramp progress evaluates to `0` (every easing maps 0 to 0, and the floored
size 0 is then bumped to odd), so the resolved kernel size is `1`, not the
behavior of a `t = 1` guard. -/
theorem C9_amended (cfg : BlurConfig) (y : ℚ) (he : cfg.endPoint = cfg.startPoint)
    (h1 : ¬ y < cfg.startPoint) (h2 : ¬ cfg.endPoint < y) :
    rangeProgress cfg y = 0 ∧ kernelSizeAt cfg y = 1 := by
  have hr : rangeProgress cfg y = 0 := by
    unfold rangeProgress
    rw [he, sub_self, div_zero]
  refine ⟨hr, ?_⟩
  unfold kernelSizeAt
  rw [if_neg h1, if_neg h2]
  dsimp only
  rw [hr, easingFunc_zero]
  norm_num [glslMod]

/-- Witness for C9 (amended) at the degenerate band config. -/
theorem C9_amended_witness :
    cfgDegenerate.endPoint = cfgDegenerate.startPoint ∧
    rangeProgress cfgDegenerate (1/2) = 0 ∧ kernelSizeAt cfgDegenerate (1/2) = 1 := by
  have h := C9_amended cfgDegenerate (1/2) rfl
    (by norm_num [cfgDegenerate]) (by norm_num [cfgDegenerate])
  exact ⟨rfl, h.1, h.2⟩

/-- Claim C5 counterexample: `easeIn(1/4) = (1/4)²(2·(1/4) − 1) = -1/32`,
so `easeIn` leaves `[0,1]` on an in-range input. -/
theorem C5_counterexample :
    (0 : ℚ) ≤ 1/4 ∧ (1/4 : ℚ) ≤ 1 ∧
    easingFunc (easingMap Easing.easeIn) (1/4) = -(1/32) ∧
    ¬ (0 : ℚ) ≤ easingFunc (easingMap Easing.easeIn) (1/4) := by
  norm_num [easingFunc, easingMap]

/-- Claim C5 (amended): on `[0,1]` the implemented formulas are
`easeIn(t) = t²(2t−1)`, `easeOut(t) = t(2−t)`, `easeInOut(t) = 2t²` for
`t < 1/2` else `−1+(4−2t)t`; `linear`, `easeOut` and `easeInOut` map
`[0,1]` into `[0,1]`, but `easeIn` is negative on `(0, 1/2)` and only maps
`[0,1]` into `[-1/27, 1]`. -/
theorem C5_amended (t : ℚ) (h0 : 0 ≤ t) (h1 : t ≤ 1) :
    (0 ≤ easingFunc 0 t ∧ easingFunc 0 t ≤ 1) ∧
    (0 ≤ easingFunc 2 t ∧ easingFunc 2 t ≤ 1) ∧
    (0 ≤ easingFunc 3 t ∧ easingFunc 3 t ≤ 1) ∧
    (-(1/27) ≤ easingFunc 1 t ∧ easingFunc 1 t ≤ 1) ∧
    easingFunc 1 t = t^2 * (2*t - 1) ∧
    easingFunc 2 t = t * (2 - t) ∧
    easingFunc 3 t = (if t < 1/2 then 2*t^2 else -1 + (4 - 2*t)*t) := by
  refine ⟨?_, ?_, ?_, ?_, ?_, ?_, ?_⟩
  · simp only [easingFunc, if_pos rfl]
    exact ⟨h0, h1⟩
  · simp only [easingFunc]
    norm_num
    constructor <;> nlinarith
  · simp only [easingFunc]
    norm_num
    split
    · rename_i ht
      constructor <;> nlinarith
    · rename_i ht
      rw [not_lt] at ht
      constructor <;> nlinarith
  · simp only [easingFunc]
    norm_num
    constructor
    · nlinarith [sq_nonneg (t - 1/3), mul_nonneg (sq_nonneg (t - 1/3)) h0]
    · nlinarith [mul_nonneg (by linarith : (0:ℚ) ≤ 1 - t)
        (by nlinarith : (0:ℚ) ≤ 2*t^2 + t + 1)]
  · rw [show easingFunc 1 t = t * t * (2 * t - 1) from by simp [easingFunc]]
    ring
  · simp only [easingFunc]
    norm_num
  · simp only [easingFunc]
    norm_num
    split <;> ring

/-- Witness for C5 (amended) at `t = 1/4`. -/
theorem C5_amended_witness :
    (0 : ℚ) ≤ 1/4 ∧ (1/4 : ℚ) ≤ 1 ∧ 0 ≤ easingFunc 0 (1/4) ∧
    -(1/27) ≤ easingFunc 1 (1/4) := by
  have h := C5_amended (1/4) (by norm_num) (by norm_num)
  exact ⟨by norm_num, by norm_num, h.1.1, h.2.2.2.1.1⟩

/-- Claim C3: on an active scanline kernel (`kernelSize ≥ 1`) the applied
weights — each raw weight divided by the accumulated `weightSum` — sum to
exactly 1; for `linear` every offset's raw weight is `1/kernelSize`; for
`gaussian` the raw weight is `exp(-0.5 (i/σ)²)` with `σ = kernelSize/6`,
symmetric about offset 0. -/
theorem C3_weights (cfg : BlurConfig) (y : ℚ) (hk : 1 ≤ kernelSizeAt cfg y) :
    (∑ i ∈ Finset.Icc (-(effRadius cfg y)) (effRadius cfg y),
        rawWeight (blurTypeMap cfg.blurType) (kernelSizeAt cfg y) i /
          ∑ j ∈ Finset.Icc (-(effRadius cfg y)) (effRadius cfg y),
            rawWeight (blurTypeMap cfg.blurType) (kernelSizeAt cfg y) j) = 1 ∧
    (cfg.blurType = BlurType.linear → ∀ i : ℤ,
      rawWeight (blurTypeMap cfg.blurType) (kernelSizeAt cfg y) i =
        ((1 / kernelSizeAt cfg y : ℚ) : ℝ)) ∧
    (cfg.blurType = BlurType.gaussian → ∀ i : ℤ,
      rawWeight (blurTypeMap cfg.blurType) (kernelSizeAt cfg y) i =
        Real.exp (-(1/2 : ℝ) * ((i : ℝ) / ((kernelSizeAt cfg y : ℝ) / 6))^2) ∧
      rawWeight (blurTypeMap cfg.blurType) (kernelSizeAt cfg y) i =
        rawWeight (blurTypeMap cfg.blurType) (kernelSizeAt cfg y) (-i)) := by
  refine ⟨?_, ?_, ?_⟩
  · rw [← Finset.sum_div]
    exact div_self (ne_of_gt (weightSum_pos _ _ hk _ (effRadius_nonneg cfg y hk)))
  · intro hbt i
    rw [hbt]
    simp [blurTypeMap, rawWeight]
  · intro hbt i
    rw [hbt]
    simp only [blurTypeMap, rawWeight]
    rw [if_neg (by norm_num)]
    have h05 : (0.5 : ℝ) = 1/2 := by norm_num
    constructor
    · rw [h05]
      ring_nf
    · congr 1
      push_cast
      ring

/-- Witness for C3 at the gaussian config, middle scanline (kernel size 5). -/
theorem C3_weights_witness :
    (1 : ℚ) ≤ kernelSizeAt cfgGauss9 (1/2) ∧
    (∑ i ∈ Finset.Icc (-(effRadius cfgGauss9 (1/2))) (effRadius cfgGauss9 (1/2)),
        rawWeight (blurTypeMap cfgGauss9.blurType) (kernelSizeAt cfgGauss9 (1/2)) i /
          ∑ j ∈ Finset.Icc (-(effRadius cfgGauss9 (1/2))) (effRadius cfgGauss9 (1/2)),
            rawWeight (blurTypeMap cfgGauss9.blurType) (kernelSizeAt cfgGauss9 (1/2)) j) = 1 := by
  have hk : (1 : ℚ) ≤ kernelSizeAt cfgGauss9 (1/2) := by
    norm_num [kernelSizeAt, rangeProgress, easingFunc, easingMap, glslMod, cfgGauss9]
  exact ⟨hk, (C3_weights cfgGauss9 (1/2) hk).1⟩

/-- Claim C4: a config that is disabled, or whose blur type is `none`,
passes the pixel buffer through unchanged (the `none` routing lives in the
spec-modelled hook; the `!config.enabled` early return is the worker's). -/
theorem C4_disabled_passthrough (gl : Bool) (buf : Buffer) (w h : ℕ)
    (cfg : UIBlurConfig)
    (hoff : cfg.enabled = false ∨ cfg.blurType = UIBlurType.none) :
    blurEntry gl buf w h cfg = Except.ok buf := by
  rcases hbt : cfg.blurType with _ | _ | _
  · simp [blurEntry, hbt]
  · have he : cfg.enabled = false := by
      rcases hoff with he | hn
      · exact he
      · rw [hbt] at hn
        exact absurd hn (by simp)
    simp [blurEntry, hbt, processBlurGPU, he]
  · have he : cfg.enabled = false := by
      rcases hoff with he | hn
      · exact he
      · rw [hbt] at hn
        exact absurd hn (by simp)
    simp [blurEntry, hbt, processBlurGPU, he]

/-- Witness for C4 at a disabled config. -/
theorem C4_disabled_passthrough_witness :
    (cfgOffUI.enabled = false ∨ cfgOffUI.blurType = UIBlurType.none) ∧
    blurEntry true bufZero 2 2 cfgOffUI = Except.ok bufZero :=
  ⟨Or.inl rfl, C4_disabled_passthrough true bufZero 2 2 cfgOffUI (Or.inl rfl)⟩

/-- Claim C6 counterexample: the worker performs no config validation.
With `maxKernelSize = 500` (outside `[1,499]`) the request is processed
normally — here on a uniform black 4×4 image it returns a complete output
buffer, and no `InvalidConfig` error exists anywhere in the code. -/
theorem C6_counterexample :
    cfg500.maxKernelSize = 500 ∧
    processBlurGPU true bufZero 4 4 cfg500 = Except.ok bufZero := by
  refine ⟨rfl, ?_⟩
  exact processBlurGPU_uniform bufZero 4 4 (fun _ => 0) cfg500 (fun _ _ _ => rfl)
    (fun _ => le_refl 0) (fun _ => by norm_num)

/-- Claim C6 (amended): the implementation never validates the config —
whenever a WebGL2 context is available, `processBlurGPU` returns an output
buffer for every config, including any out-of-range `maxKernelSize` (only
the UI caps its slider and number input at 499). -/
theorem C6_amended (buf : Buffer) (w h : ℕ) (cfg : BlurConfig) :
    resultIsOk (processBlurGPU true buf w h cfg) = true := by
  unfold processBlurGPU
  by_cases he : cfg.enabled = false
  · rw [if_pos he]
    rfl
  · rw [if_neg he, if_neg (by simp)]
    rfl

/-- Claim C7 counterexample: a processing failure (here: the WebGL2 context
cannot be acquired, so `processBlurGPU` throws) is caught by the worker's
message handler, logged with `console.error`, and nothing is posted back —
the caller receives neither a result nor an error. -/
theorem C7_counterexample :
    processBlurGPU false bufZero 2 2 cfgLin3 = Except.error webglError ∧
    handleMessage false
      (WorkerMessage.process (some bufZero) (some 2) (some 2) (some cfgLin3)) = none := by
  have hp : processBlurGPU false bufZero 2 2 cfgLin3 = Except.error webglError := by
    unfold processBlurGPU
    rw [if_neg (by simp [cfgLin3]), if_pos rfl]
  refine ⟨hp, ?_⟩
  simp only [handleMessage]
  rw [if_neg (by norm_num), hp]

/-- Claim C7 (amended): every failing `'process'` request produces no
response message at all — the `catch` block only logs, so the caller gets
neither an output buffer nor a typed error (a silent third state). -/
theorem C7_amended (gl : Bool) (buf : Buffer) (w h : ℕ) (cfg : BlurConfig)
    (hfail : resultIsOk (processBlurGPU gl buf w h cfg) = false) :
    handleMessage gl
      (WorkerMessage.process (some buf) (some w) (some h) (some cfg)) = none := by
  simp only [handleMessage]
  by_cases hwh : w = 0 ∨ h = 0
  · rw [if_pos hwh]
  · rw [if_neg hwh]
    cases hp : processBlurGPU gl buf w h cfg with
    | ok d =>
        rw [hp] at hfail
        exact absurd hfail (by simp [resultIsOk])
    | error e => simp [hp]

/-- Witness for C7 (amended) at an unavailable WebGL2 context. -/
theorem C7_amended_witness :
    resultIsOk (processBlurGPU false bufZero 2 2 cfgLin3) = false ∧
    handleMessage false
      (WorkerMessage.process (some bufZero) (some 2) (some 2) (some cfgLin3)) = none := by
  have hfail : resultIsOk (processBlurGPU false bufZero 2 2 cfgLin3) = false := by
    unfold processBlurGPU
    rw [if_neg (by simp [cfgLin3]), if_pos rfl]
    rfl
  exact ⟨hfail, C7_amended false bufZero 2 2 cfgLin3 hfail⟩

/-- Claim C8: with a WebGL2 context, blurring a uniform-color image (all
pixels equal, channels valid bytes) under any configuration returns the
very same buffer: a constant field is a fixed point of both edge-clamped,
weight-normalized passes and of the byte round trip. -/
theorem C8_uniform_fixed_point (buf : Buffer) (w h : ℕ) (c : Fin 4 → ℤ)
    (cfg : BlurConfig) (hbuf : ∀ x y ch, buf x y ch = c ch)
    (h0 : ∀ ch, 0 ≤ c ch) (h255 : ∀ ch, c ch ≤ 255) :
    processBlurGPU true buf w h cfg = Except.ok buf :=
  processBlurGPU_uniform buf w h c cfg hbuf h0 h255

/-- Witness for C8 at §8's concrete scenario: a pure-red 4×4 image with the
linear whole-band config returns the identical pure-red buffer. -/
theorem C8_uniform_fixed_point_witness :
    processBlurGPU true bufRed 4 4 cfgLin3 = Except.ok bufRed := by
  refine C8_uniform_fixed_point bufRed 4 4 colRed cfgLin3 (fun _ _ _ => rfl) ?_ ?_
  · intro ch
    unfold colRed
    split
    · norm_num
    · split
      · norm_num
      · norm_num
  · intro ch
    unfold colRed
    split
    · norm_num
    · split
      · norm_num
      · norm_num
